import Mathlib

/-!
Verification of the label-sheet generator in `src/app.py`.

The development is a shallow embedding of the program's layout-and-compositing
core: the unit-to-pixel conversion and cell sizing (app.py lines 110-123 and
164-177), the PIL-level compositing operations used by the generator
(lines 229-252), the grid placement and sheet-sealing logic (lines 180-269),
and the batched rendering loop (lines 186-265) together with the final PDF
save step (line 275).

Modelling conventions:
* Physical-unit values (inches) entered in the UI are rationals; Python's
  `int(...)` truncation toward zero is `pyInt`.  Python's floor division `//`
  on integers is `Int.fdiv`.
* A raster image is a width, a height and a total pixel-lookup function;
  pixel values are abstract colour codes in `ℕ`.
* The external rasterizer (`convert_from_bytes`) is modelled by its contract
  (spec section 6): the source document is the list of its page rasters at the
  target resolution, and a `(first_page, last_page)` call returns that
  1-based inclusive slice.
* The LANCZOS resampling kernel of `PIL.Image.resize` is abstracted by a
  fixed sampling function (`resample`); its output dimensions, the same-size
  shortcut (Pillow returns a copy when the target size equals the current
  size), and the error on negative sizes are modelled faithfully.  No theorem
  below depends on the pixel values produced by genuine resampling.
* Fallible Python/PIL operations return `Except RunError`; the constructors
  cover both the exceptions the code can actually raise (`valueError`,
  `zeroDivisionError`, `indexError`) and the error kinds named by the spec
  (`invalidConfiguration`, `emptyDocument`), so that claims about the latter
  can be stated.
* The UI bounds (app.py lines 88-107) guarantee `cols ≥ 1`, `rows ≥ 1`,
  `start_pos ≥ 1`; theorems take these as hypotheses where they matter.
-/

namespace LabelSheet

/-- Colour code used for the `'white'` background of `Image.new` calls. -/
def white : ℕ := 16777215

/-- An in-memory raster: width, height, and a pixel lookup.  Only the values
of `pix x y` with `x < w` and `y < h` are meaningful. -/
structure Img where
  w : ℕ
  h : ℕ
  pix : ℕ → ℕ → ℕ

/-- Python's `int(...)` applied to a (real-valued) expression: truncation
toward zero. -/
def pyInt (q : ℚ) : ℤ := if 0 ≤ q then ⌊q⌋ else -⌊-q⌋

/-- The `Resize Mode` selectbox of app.py line 106. -/
inductive ResizeMode
  | fit
  | fill
  | stretch
deriving DecidableEq

/-- Run-time failures.  `valueError` and `zeroDivisionError` are the
exceptions PIL / Python arithmetic can raise inside the generation loop;
`indexError` is raised by `output_sheets[0]` on an empty list (app.py
line 275).  `invalidConfiguration` and `emptyDocument` are the error kinds
named by the spec (section 7); they are included so that claims about them
can be stated, and the theorems below show the code never produces them. -/
inductive RunError
  | valueError
  | zeroDivisionError
  | indexError
  | invalidConfiguration
  | emptyDocument
deriving DecidableEq

/-- `PIL.Image.new('RGB', (w, h), colour)`: fails on negative sizes,
otherwise a solid-colour canvas. -/
def imgNew (w h : ℤ) (c : ℕ) : Except RunError Img :=
  if w < 0 ∨ h < 0 then .error .valueError
  else .ok { w := w.toNat, h := h.toNat, pix := fun _ _ => c }

/-- Stand-in for the LANCZOS resampling kernel: produces an image of the
requested dimensions whose pixels sample the source.  The exact pixel values
of true LANCZOS resampling are abstracted; no theorem depends on them. -/
def resample (img : Img) (nw nh : ℕ) : Img :=
  { w := nw, h := nh, pix := fun x y => img.pix (x * img.w / nw) (y * img.h / nh) }

/-- `PIL.Image.resize((w, h), Image.LANCZOS)`: rejects negative sizes,
returns a copy unchanged when the target size equals the current size
(Pillow's same-size shortcut), otherwise resamples. -/
def Img.resize (img : Img) (w h : ℤ) : Except RunError Img :=
  if w < 0 ∨ h < 0 then .error .valueError
  else if w = (img.w : ℤ) ∧ h = (img.h : ℤ) then .ok img
  else .ok (resample img w.toNat h.toNat)

/-- `PIL.Image.crop((l, t, r, b))`: rejects an inverted box, returns an image
of exactly the box size; regions of the box outside the source are filled
with colour `0`. -/
def Img.crop (img : Img) (l t r b : ℤ) : Except RunError Img :=
  if r < l ∨ b < t then .error .valueError
  else .ok
    { w := (r - l).toNat
      h := (b - t).toNat
      pix := fun x y =>
        if 0 ≤ l + (x : ℤ) ∧ l + (x : ℤ) < (img.w : ℤ) ∧
           0 ≤ t + (y : ℤ) ∧ t + (y : ℤ) < (img.h : ℤ)
        then img.pix (l + (x : ℤ)).toNat (t + (y : ℤ)).toNat
        else 0 }

/-- `base.paste(src, (dx, dy))`: pastes `src` onto `base` at a possibly
negative offset; the canvas bounds clip implicitly. -/
def Img.paste (base src : Img) (dx dy : ℤ) : Img :=
  { w := base.w
    h := base.h
    pix := fun x y =>
      if dx ≤ (x : ℤ) ∧ (x : ℤ) < dx + (src.w : ℤ) ∧
         dy ≤ (y : ℤ) ∧ (y : ℤ) < dy + (src.h : ℤ)
      then src.pix ((x : ℤ) - dx).toNat ((y : ℤ) - dy).toNat
      else base.pix x y }

/-- The configuration assembled by the sidebar controls (app.py lines 75-107).
Physical sizes are in inches. -/
structure Config where
  sheetWidth : ℚ
  sheetHeight : ℚ
  cols : ℕ
  rows : ℕ
  hSpacing : ℚ
  vSpacing : ℚ
  mTop : ℚ
  mLeft : ℚ
  mRight : ℚ
  useCustomSize : Bool
  labelWInput : ℚ
  labelHInput : ℚ
  showGrid : Bool
  imgScale : ℕ
  resizeMode : ResizeMode
  startPos : ℕ

/-- app.py line 101: `m_bot = m_top` — the bottom margin is not an
independent control. -/
def Config.mBot (cfg : Config) : ℚ := cfg.mTop

/-- Pixel-space layout parameters. -/
structure PixelParams where
  sheetW : ℤ
  sheetH : ℤ
  mt : ℤ
  ml : ℤ
  hspace : ℤ
  vspace : ℤ
  availW : ℤ
  availH : ℤ
  lblW : ℤ
  lblH : ℤ

/-- Unit-to-pixel conversion and cell sizing.  Mirrors app.py lines 110-123
(preview render, dpi 72) and lines 164-177 (final render, dpi 300), which use
the same formulas.  Auto-fill mode divides the available span minus the
inter-label gaps by the grid count with Python floor division `//`. -/
def pixelParams (cfg : Config) (dpi : ℕ) : PixelParams :=
  let sheetW := pyInt (cfg.sheetWidth * (dpi : ℚ))
  let sheetH := pyInt (cfg.sheetHeight * (dpi : ℚ))
  let mt := pyInt (cfg.mTop * (dpi : ℚ))
  let ml := pyInt (cfg.mLeft * (dpi : ℚ))
  let hspace := pyInt (cfg.hSpacing * (dpi : ℚ))
  let vspace := pyInt (cfg.vSpacing * (dpi : ℚ))
  let availW := sheetW - ml - pyInt (cfg.mRight * (dpi : ℚ))
  let availH := sheetH - mt - pyInt (cfg.mBot * (dpi : ℚ))
  let lblW :=
    if cfg.useCustomSize then pyInt (cfg.labelWInput * (dpi : ℚ))
    else Int.fdiv (availW - ((cfg.cols : ℤ) - 1) * hspace) (cfg.cols : ℤ)
  let lblH :=
    if cfg.useCustomSize then pyInt (cfg.labelHInput * (dpi : ℚ))
    else Int.fdiv (availH - ((cfg.rows : ℤ) - 1) * vspace) (cfg.rows : ℤ)
  { sheetW := sheetW, sheetH := sheetH, mt := mt, ml := ml,
    hspace := hspace, vspace := vspace, availW := availW, availH := availH,
    lblW := lblW, lblH := lblH }

/-- `final_dpi = 300` (app.py line 164). -/
def final_dpi : ℕ := 300

/-- Grid-cell origin for a within-sheet position (app.py lines 222-226):
`c_idx = pos % cols`, `r_idx = pos // cols`,
`x = f_ml + c_idx * (f_lbl_w + f_hspace)`,
`y = f_mt + r_idx * (f_lbl_h + f_vspace)`. -/
def cellOrigin (pp : PixelParams) (cols : ℕ) (pos : ℕ) : ℤ × ℤ :=
  (pp.ml + ((pos % cols : ℕ) : ℤ) * (pp.lblW + pp.hspace),
   pp.mt + ((pos / cols : ℕ) : ℤ) * (pp.lblH + pp.vspace))

/-- Scaled dimensions chosen by the `fill` branch (app.py lines 236-237):
`ratio = max(eff_w/orig_w, eff_h/orig_h)`, then
`nw, nh = int(orig_w*ratio), int(orig_h*ratio)`. -/
def fillScaled (img : Img) (effW effH : ℤ) : ℤ × ℤ :=
  let sc : ℚ := max ((effW : ℚ) / (img.w : ℚ)) ((effH : ℚ) / (img.h : ℚ))
  (pyInt ((img.w : ℚ) * sc), pyInt ((img.h : ℚ) * sc))

/-- Scaled dimensions chosen by the `fit` branch (app.py lines 242-243):
`ratio = min(eff_w/orig_w, eff_h/orig_h)`, then
`nw, nh = int(orig_w*ratio), int(orig_h*ratio)`. -/
def fitScaled (img : Img) (effW effH : ℤ) : ℤ × ℤ :=
  let sc : ℚ := min ((effW : ℚ) / (img.w : ℚ)) ((effH : ℚ) / (img.h : ℚ))
  (pyInt ((img.w : ℚ) * sc), pyInt ((img.h : ℚ) * sc))

/-- The per-label resize step (app.py lines 233-247).  `stretch` resizes the
source directly to the effective size; `fill` scales uniformly by the max
ratio and center-crops to the effective size; `fit` scales uniformly by the
min ratio and centers the result on a white background of the effective
size.  The ratio computations divide by the source dimensions, so a
zero-sized source raises `ZeroDivisionError` in Python. -/
def composite (mode : ResizeMode) (img : Img) (effW effH : ℤ) : Except RunError Img :=
  match mode with
  | .stretch => img.resize effW effH
  | .fill =>
    if img.w = 0 ∨ img.h = 0 then .error .zeroDivisionError
    else
      let nw := (fillScaled img effW effH).1
      let nh := (fillScaled img effW effH).2
      match img.resize nw nh with
      | .error e => .error e
      | .ok r =>
        let l := (nw - effW).fdiv 2
        let t := (nh - effH).fdiv 2
        r.crop l t (l + effW) (t + effH)
  | .fit =>
    if img.w = 0 ∨ img.h = 0 then .error .zeroDivisionError
    else
      let nw := (fitScaled img effW effH).1
      let nh := (fitScaled img effW effH).2
      match img.resize nw nh with
      | .error e => .error e
      | .ok r =>
        match imgNew effW effH white with
        | .error e => .error e
        | .ok bg => .ok (bg.paste r ((effW - nw).fdiv 2) ((effH - nh).fdiv 2))

/-- Mutable state of the generation loop: the sealed sheets so far, the
shared `grid_position` counter, and the in-progress sheet canvas. -/
structure GenState where
  sheets : List Img
  gridPos : ℕ
  current : Img

/-- The blank sheet canvas `Image.new('RGB', (f_sheet_w, f_sheet_h), 'white')`
(app.py lines 189, 218, 258).  The UI's lower bounds on the sheet dimensions
keep them positive, so the `Image.new` failure mode cannot arise here. -/
def blankSheet (pp : PixelParams) : Img :=
  { w := pp.sheetW.toNat, h := pp.sheetH.toNat, pix := fun _ _ => white }

/-- One iteration of the leading-skip loop (app.py lines 215-219): seal the
current sheet if the skipped slot is the last of a sheet, then advance the
grid position. -/
def skipStep (lps : ℕ) (blank : Img) (st : GenState) : GenState :=
  if (st.gridPos + 1) % lps = 0 then
    { sheets := st.sheets ++ [st.current], gridPos := st.gridPos + 1, current := blank }
  else
    { st with gridPos := st.gridPos + 1 }

/-- `n` iterations of the leading-skip loop. -/
def skipN (lps : ℕ) (blank : Img) : ℕ → GenState → GenState
  | 0, st => st
  | n + 1, st => skipN lps blank n (skipStep lps blank st)

/-- Processing of one source page inside the batch loop (app.py lines
214-259): run the `while grid_position < (start_pos - 1)` skip loop, compute
the within-sheet position and cell origin, composite the page raster at the
effective (image-scaled) size, paste it centered in the cell, advance the
grid position, and seal the sheet when its last slot was just filled.
The scalar arguments are the `start_pos`, `img_scale`, `resize_mode` and
`cols` variables read by the loop body. -/
def placeLabel (startPos imgScale : ℕ) (mode : ResizeMode) (cols : ℕ)
    (pp : PixelParams) (lps : ℕ) (st : GenState) (img : Img) :
    Except RunError GenState :=
  let st1 := skipN lps (blankSheet pp) (startPos - 1 - st.gridPos) st
  let pos := st1.gridPos % lps
  let xy := cellOrigin pp cols pos
  let effW := pyInt ((pp.lblW : ℚ) * ((imgScale : ℚ) / 100))
  let effH := pyInt ((pp.lblH : ℚ) * ((imgScale : ℚ) / 100))
  match composite mode img effW effH with
  | .error e => .error e
  | .ok resized =>
    let dx := xy.1 + (pp.lblW - (resized.w : ℤ)).fdiv 2
    let dy := xy.2 + (pp.lblH - (resized.h : ℤ)).fdiv 2
    let cur := st1.current.paste resized dx dy
    if pos + 1 = lps then
      .ok { sheets := st1.sheets ++ [cur], gridPos := st1.gridPos + 1,
            current := blankSheet pp }
    else
      .ok { sheets := st1.sheets, gridPos := st1.gridPos + 1, current := cur }

/-- The external rasterizer's contract (spec section 6): given the document's
page rasters, `convert_from_bytes(bytes, first_page, last_page, dpi)` returns
the 1-based inclusive slice of pages. -/
def rasterize (doc : List Img) (firstPage lastPage : ℕ) : List Img :=
  (doc.drop (firstPage - 1)).take (lastPage + 1 - firstPage)

/-- The batched `while label_read_head < total_pages` loop (app.py lines
194-261), written with explicit fuel; `generate` supplies fuel
`doc.length`, which suffices for any window size `B ≥ 1` since each
iteration advances the read head by at least one page.  Returns the list of
`(first_page, last_page)` rasterizer calls issued and the loop's outcome. -/
def genLoop (startPos imgScale : ℕ) (mode : ResizeMode) (cols : ℕ)
    (pp : PixelParams) (lps : ℕ) (doc : List Img) (B : ℕ) :
    ℕ → ℕ → GenState → List (ℕ × ℕ) × Except RunError GenState
  | 0, _, st => ([], .ok st)
  | fuel + 1, lrh, st =>
    if lrh < doc.length then
      let batchEnd := min (lrh + B) doc.length
      let batch := rasterize doc (lrh + 1) batchEnd
      match batch.foldlM (placeLabel startPos imgScale mode cols pp lps) st with
      | .error e => ([(lrh + 1, batchEnd)], .error e)
      | .ok st2 =>
        let rest := genLoop startPos imgScale mode cols pp lps doc B fuel batchEnd st2
        ((lrh + 1, batchEnd) :: rest.1, rest.2)
    else ([], .ok st)

/-- `BATCH_SIZE = 50` (app.py line 186). -/
def BATCH_SIZE : ℕ := 50

/-- The full-generation pass (app.py lines 157-269) with the batch window
size as a parameter (the app runs it with `BATCH_SIZE`): compute pixel
parameters at `final_dpi`, run the batch loop from grid position 0, and seal
the final partial sheet if the grid position is not at a sheet boundary.
Returns the rasterizer-call trace and the ordered output sheets. -/
def generate (cfg : Config) (doc : List Img) (B : ℕ) :
    List (ℕ × ℕ) × Except RunError (List Img) :=
  let pp := pixelParams cfg final_dpi
  let lps := cfg.cols * cfg.rows
  let st0 : GenState := { sheets := [], gridPos := 0, current := blankSheet pp }
  match genLoop cfg.startPos cfg.imgScale cfg.resizeMode cfg.cols pp lps doc B doc.length 0 st0 with
  | (tr, .error e) => (tr, .error e)
  | (tr, .ok st) =>
    if st.gridPos % lps ≠ 0 then (tr, .ok (st.sheets ++ [st.current]))
    else (tr, .ok st.sheets)

/-- Expected output-sheet count computed up front (app.py lines 182-183):
`total_items = total_pages + (start_pos - 1)`,
`total_out_sheets = (total_items + labels_per_sheet - 1) // labels_per_sheet`. -/
def totalOutSheets (cfg : Config) (totalPages : ℕ) : ℕ :=
  let lps := cfg.cols * cfg.rows
  (totalPages + (cfg.startPos - 1) + lps - 1) / lps

/-- The PDF save step (app.py line 275): `output_sheets[0].save(...)` raises
`IndexError` on an empty sheet list; otherwise the PDF's pages are the
ordered sheets. -/
def savePDF (sheets : List Img) : Except RunError (List Img) :=
  match sheets with
  | [] => .error .indexError
  | s :: rest => .ok (s :: rest)

/-- The whole `Generate Full PDF` handler: batch generation followed by the
PDF save. -/
def fullRun (cfg : Config) (doc : List Img) : Except RunError (List Img) :=
  match (generate cfg doc BATCH_SIZE).2 with
  | .error e => .error e
  | .ok sheets => savePDF sheets

/-! ### Basic facts about `pyInt` and floor division -/

theorem pyInt_of_nonneg {q : ℚ} (h : 0 ≤ q) : pyInt q = ⌊q⌋ := if_pos h

theorem pyInt_le_neg_one {q : ℚ} (h : q ≤ -1) : pyInt q ≤ -1 := by
  have hq : ¬ (0 : ℚ) ≤ q := by linarith
  have h1 : (1 : ℚ) ≤ -q := by linarith
  have h2 : (1 : ℤ) ≤ ⌊-q⌋ := by
    have := Int.le_floor (z := 1) (a := -q)
    exact this.mpr (by exact_mod_cast h1)
  simp only [pyInt, if_neg hq]
  omega

theorem fdiv_cast_floor (n : ℤ) (k : ℕ) (hk : 1 ≤ k) :
    n.fdiv (k : ℤ) = ⌊(n : ℚ) / (k : ℚ)⌋ := by
  rw [Int.fdiv_eq_ediv n (by positivity), Rat.floor_intCast_div_natCast]

theorem fdiv_mul_bound (n : ℤ) (k : ℕ) (hk : 1 ≤ k) :
    n.fdiv (k : ℤ) * (k : ℤ) ≤ n ∧ n - n.fdiv (k : ℤ) * (k : ℤ) < (k : ℤ) := by
  have hk0 : (0 : ℤ) < (k : ℤ) := by exact_mod_cast hk
  rw [Int.fdiv_eq_ediv n (le_of_lt hk0)]
  have hd := Int.ediv_add_emod n (k : ℤ)
  have h1 : 0 ≤ n % (k : ℤ) := Int.emod_nonneg n (by omega)
  have h2 : n % (k : ℤ) < (k : ℤ) := Int.emod_lt_of_pos n hk0
  have hc : n / (k : ℤ) * (k : ℤ) = (k : ℤ) * (n / (k : ℤ)) := mul_comm _ _
  constructor <;> [linarith [hc]; linarith [hc]]

/-! ### Projection lemmas for the sizing formulas -/

theorem pixelParams_lblW_auto (cfg : Config) (dpi : ℕ) (hauto : cfg.useCustomSize = false) :
    (pixelParams cfg dpi).lblW =
      Int.fdiv ((pixelParams cfg dpi).availW - ((cfg.cols : ℤ) - 1) * (pixelParams cfg dpi).hspace)
        (cfg.cols : ℤ) := by
  simp [pixelParams, hauto]

theorem pixelParams_lblH_auto (cfg : Config) (dpi : ℕ) (hauto : cfg.useCustomSize = false) :
    (pixelParams cfg dpi).lblH =
      Int.fdiv ((pixelParams cfg dpi).availH - ((cfg.rows : ℤ) - 1) * (pixelParams cfg dpi).vspace)
        (cfg.rows : ℤ) := by
  simp [pixelParams, hauto]

theorem succ_mod_eq_zero_iff (g n : ℕ) (hn : 1 ≤ n) : (g + 1) % n = 0 ↔ g % n + 1 = n := by
  have h1 : g % n < n := Nat.mod_lt _ hn
  have hq := Nat.div_add_mod g n
  rcases eq_or_lt_of_le (Nat.succ_le_of_lt h1) with he | hlt
  · have hg : g + 1 = n * (g / n) + n := by omega
    rw [hg, Nat.mul_add_mod, Nat.mod_self]
    constructor <;> intro <;> omega
  · have hg : g + 1 = n * (g / n) + (g % n + 1) := by omega
    rw [hg, Nat.mul_add_mod, Nat.mod_eq_of_lt hlt]
    omega

theorem skipStep_gridPos (lps : ℕ) (blank : Img) (st : GenState) :
    (skipStep lps blank st).gridPos = st.gridPos + 1 := by
  unfold skipStep
  split <;> rfl

theorem skipStep_count (lps : ℕ) (blank : Img) (st : GenState) (_hl : 1 ≤ lps)
    (h : st.sheets.length = st.gridPos / lps) :
    (skipStep lps blank st).sheets.length = (skipStep lps blank st).gridPos / lps := by
  unfold skipStep
  split
  · next hc =>
    show (st.sheets ++ [st.current]).length = (st.gridPos + 1) / lps
    rw [List.length_append, Nat.succ_div,
      if_pos (Nat.dvd_iff_mod_eq_zero.mpr hc)]
    simp [h]
  · next hc =>
    show st.sheets.length = (st.gridPos + 1) / lps
    rw [Nat.succ_div, if_neg (fun hd => hc (Nat.dvd_iff_mod_eq_zero.mp hd))]
    simp [h]

theorem skipN_gridPos (lps : ℕ) (blank : Img) :
    ∀ (n : ℕ) (st : GenState), (skipN lps blank n st).gridPos = st.gridPos + n := by
  intro n
  induction n with
  | zero => intro st; rfl
  | succ n ih =>
    intro st
    show (skipN lps blank n (skipStep lps blank st)).gridPos = st.gridPos + (n + 1)
    rw [ih, skipStep_gridPos]
    omega

theorem skipN_count (lps : ℕ) (blank : Img) (hl : 1 ≤ lps) :
    ∀ (n : ℕ) (st : GenState), st.sheets.length = st.gridPos / lps →
      (skipN lps blank n st).sheets.length = (skipN lps blank n st).gridPos / lps := by
  intro n
  induction n with
  | zero => intro st h; exact h
  | succ n ih =>
    intro st h
    exact ih _ (skipStep_count lps blank st hl h)

/-- Effect of one `placeLabel` step on the grid position and the sealed-sheet
count: the skip loop raises the grid position to `start_pos - 1` if it was
below it, placing adds one, and the number of sealed sheets stays
`gridPos / labelsPerSheet`. -/
theorem placeLabel_ok (startPos imgScale : ℕ) (mode : ResizeMode) (cols : ℕ)
    (pp : PixelParams) (lps : ℕ) (hl : 1 ≤ lps) (st : GenState) (img : Img) (st' : GenState)
    (h : placeLabel startPos imgScale mode cols pp lps st img = .ok st') :
    st'.gridPos = max st.gridPos (startPos - 1) + 1 ∧
    (st.sheets.length = st.gridPos / lps → st'.sheets.length = st'.gridPos / lps) := by
  simp only [placeLabel] at h
  have hg1 : (skipN lps (blankSheet pp) (startPos - 1 - st.gridPos) st).gridPos =
      max st.gridPos (startPos - 1) := by
    rw [skipN_gridPos]
    omega
  split at h
  · simp at h
  · split at h
    · next hseal =>
      rw [Except.ok.injEq] at h
      subst h
      constructor
      · show (skipN lps (blankSheet pp) (startPos - 1 - st.gridPos) st).gridPos + 1 = _
        rw [hg1]
      · intro h0
        have hc1 := skipN_count lps (blankSheet pp) hl (startPos - 1 - st.gridPos) st h0
        simp only [List.length_append, List.length_cons, List.length_nil]
        rw [Nat.succ_div,
          if_pos (Nat.dvd_iff_mod_eq_zero.mpr ((succ_mod_eq_zero_iff _ lps hl).mpr hseal))]
        omega
    · next hseal =>
      rw [Except.ok.injEq] at h
      subst h
      constructor
      · show (skipN lps (blankSheet pp) (startPos - 1 - st.gridPos) st).gridPos + 1 = _
        rw [hg1]
      · intro h0
        have hc1 := skipN_count lps (blankSheet pp) hl (startPos - 1 - st.gridPos) st h0
        show (skipN lps (blankSheet pp) (startPos - 1 - st.gridPos) st).sheets.length =
          ((skipN lps (blankSheet pp) (startPos - 1 - st.gridPos) st).gridPos + 1) / lps
        rw [Nat.succ_div,
          if_neg (fun hd => hseal ((succ_mod_eq_zero_iff _ lps hl).mp
            (Nat.dvd_iff_mod_eq_zero.mp hd)))]
        omega

/-- Folding `placeLabel` over a page list: if it succeeds, the sealed-sheet
count invariant is preserved and the final grid position is determined by the
initial one, `start_pos` and the number of pages. -/
theorem foldl_place_ok (startPos imgScale : ℕ) (mode : ResizeMode) (cols : ℕ)
    (pp : PixelParams) (lps : ℕ) (hl : 1 ≤ lps) :
    ∀ (imgs : List Img) (st st' : GenState),
      imgs.foldlM (placeLabel startPos imgScale mode cols pp lps) st = .ok st' →
      (st.sheets.length = st.gridPos / lps → st'.sheets.length = st'.gridPos / lps) ∧
      (imgs = [] → st' = st) ∧
      (imgs ≠ [] → st'.gridPos = max st.gridPos (startPos - 1) + imgs.length) := by
  intro imgs
  induction imgs with
  | nil =>
    intro st st' h
    simp only [List.foldlM_nil, pure, Except.pure, Except.ok.injEq] at h
    subst h
    exact ⟨id, fun _ => rfl, fun hne => absurd rfl hne⟩
  | cons a as ih =>
    intro st st' h
    rw [List.foldlM_cons] at h
    cases hp : placeLabel startPos imgScale mode cols pp lps st a with
    | error e =>
      rw [hp] at h
      simp [bind, Except.bind] at h
    | ok st1 =>
      rw [hp] at h
      simp only [bind, Except.bind] at h
      obtain ⟨hg1, hmono1⟩ :=
        placeLabel_ok startPos imgScale mode cols pp lps hl st a st1 hp
      obtain ⟨hmono, hnil, hpos⟩ := ih st1 st' h
      refine ⟨fun h0 => hmono (hmono1 h0), fun hne => absurd hne (by simp), fun _ => ?_⟩
      rcases as with _ | ⟨b, bs⟩
      · rw [hnil rfl, hg1]
        simp
      · have hp2 := hpos (by simp)
        simp only [List.length_cons] at hp2 ⊢
        rw [hp2, hg1]
        omega

/-- The batched loop computes the same outcome as one fold over all pages:
with any window size at least 1 and enough fuel, `genLoop`'s result is the
fold of `placeLabel` over the remaining pages.  The grid-position counter is
the only cross-window state, so window boundaries are invisible. -/
theorem genLoop_eq_foldlM (startPos imgScale : ℕ) (mode : ResizeMode) (cols : ℕ)
    (pp : PixelParams) (lps : ℕ) (doc : List Img) (B : ℕ) (hB : 1 ≤ B) :
    ∀ (fuel lrh : ℕ) (st : GenState), doc.length - lrh ≤ fuel →
      (genLoop startPos imgScale mode cols pp lps doc B fuel lrh st).2 =
        (doc.drop lrh).foldlM (placeLabel startPos imgScale mode cols pp lps) st := by
  intro fuel
  induction fuel with
  | zero =>
    intro lrh st hle
    have hd : doc.drop lrh = [] := List.drop_eq_nil_of_le (by omega)
    simp [genLoop, hd, pure, Except.pure]
  | succ fuel ih =>
    intro lrh st hle
    by_cases hlt : lrh < doc.length
    · have hbe : lrh + 1 ≤ min (lrh + B) doc.length := by omega
      have hsplit : rasterize doc (lrh + 1) (min (lrh + B) doc.length) ++
          doc.drop (min (lrh + B) doc.length) = doc.drop lrh := by
        unfold rasterize
        have h1 : min (lrh + B) doc.length + 1 - (lrh + 1) =
            min (lrh + B) doc.length - lrh := by omega
        have h2 : lrh + 1 - 1 = lrh := by omega
        have hk : min (lrh + B) doc.length = lrh + (min (lrh + B) doc.length - lrh) := by
          omega
        rw [h1, h2]
        nth_rewrite 2 [hk]
        rw [← List.drop_drop, List.take_append_drop]
      simp only [genLoop, if_pos hlt]
      cases hfold : (rasterize doc (lrh + 1) (min (lrh + B) doc.length)).foldlM
          (placeLabel startPos imgScale mode cols pp lps) st with
      | error e =>
        rw [← hsplit, List.foldlM_append, hfold]
        simp [hfold, bind, Except.bind]
      | ok st2 =>
        rw [← hsplit, List.foldlM_append, hfold]
        simp only [hfold, bind, Except.bind]
        exact ih (min (lrh + B) doc.length) st2 (by omega)
    · have hd : doc.drop lrh = [] := List.drop_eq_nil_of_le (by omega)
      simp [genLoop, hlt, hd, pure, Except.pure]

/-- The sheet list produced by `generate` equals the result of one fold of
`placeLabel` over the whole document followed by the final partial-sheet
seal. -/
theorem generate_snd (cfg : Config) (doc : List Img) (B : ℕ) (hB : 1 ≤ B) :
    (generate cfg doc B).2 =
      (match doc.foldlM
          (placeLabel cfg.startPos cfg.imgScale cfg.resizeMode cfg.cols
            (pixelParams cfg final_dpi) (cfg.cols * cfg.rows))
          { sheets := [], gridPos := 0, current := blankSheet (pixelParams cfg final_dpi) } with
      | .error e => .error e
      | .ok st =>
        if st.gridPos % (cfg.cols * cfg.rows) ≠ 0 then .ok (st.sheets ++ [st.current])
        else .ok st.sheets) := by
  have h := genLoop_eq_foldlM cfg.startPos cfg.imgScale cfg.resizeMode cfg.cols
    (pixelParams cfg final_dpi) (cfg.cols * cfg.rows) doc B hB doc.length 0
    { sheets := [], gridPos := 0, current := blankSheet (pixelParams cfg final_dpi) }
    (by omega)
  rw [List.drop_zero] at h
  simp only [generate]
  rcases hE : genLoop cfg.startPos cfg.imgScale cfg.resizeMode cfg.cols
      (pixelParams cfg final_dpi) (cfg.cols * cfg.rows) doc B doc.length 0
      { sheets := [], gridPos := 0, current := blankSheet (pixelParams cfg final_dpi) }
      with ⟨tr, res⟩
  rw [hE] at h
  rcases res with e | st
  · rw [← h]
  · rw [← h]
    by_cases hz : st.gridPos % (cfg.cols * cfg.rows) = 0 <;> simp [hz]

/-! ### Arithmetic of the expected-sheet count -/

theorem div_ceil_split (m n : ℕ) (hn : 1 ≤ n) :
    m / n + (if m % n = 0 then 0 else 1) = (m + n - 1) / n := by
  have hq := Nat.div_add_mod m n
  have hr : m % n < n := Nat.mod_lt _ hn
  by_cases h0 : m % n = 0
  · rw [if_pos h0]
    have he : m + n - 1 = n * (m / n) + (n - 1) := by omega
    rw [he, Nat.mul_add_div (by omega), Nat.div_eq_of_lt (show n - 1 < n by omega)]
  · rw [if_neg h0]
    have he : m + n - 1 = n * (m / n) + (m % n + n - 1) := by omega
    rw [he, Nat.mul_add_div (by omega),
      Nat.div_eq_of_lt_le (show 1 * n ≤ m % n + n - 1 by omega)
        (show m % n + n - 1 < (1 + 1) * n by omega)]

theorem ceil_formula (m n : ℕ) (hn : 1 ≤ n) :
    (((m + n - 1) / n : ℕ) : ℤ) = ⌈(m : ℚ) / (n : ℚ)⌉ := by
  have hq := Nat.div_add_mod (m + n - 1) n
  have hr : (m + n - 1) % n < n := Nat.mod_lt _ hn
  set N := (m + n - 1) / n with hN
  have h1 : m ≤ n * N := by omega
  have h2 : n * N < m + n := by omega
  have hnQ : (0 : ℚ) < (n : ℚ) := by exact_mod_cast hn
  symm
  rw [Int.ceil_eq_iff]
  constructor
  · rw [lt_div_iff₀ hnQ]
    have h2Q : (n : ℚ) * (N : ℚ) < (m : ℚ) + (n : ℚ) := by exact_mod_cast h2
    push_cast
    nlinarith [h2Q]
  · rw [div_le_iff₀ hnQ]
    have h1Q : (m : ℚ) ≤ (n : ℚ) * (N : ℚ) := by exact_mod_cast h1
    push_cast
    nlinarith [h1Q]

/-- The UI's default configuration (app.py lines 79-107 default values):
letter sheet, 3 columns by 4 rows, 0.1 inch gaps, 0.5/0.25/0.25 inch
margins, auto-fill sizing. -/
def cfgDefault : Config :=
  { sheetWidth := 8.5, sheetHeight := 11, cols := 3, rows := 4,
    hSpacing := 0.1, vSpacing := 0.1, mTop := 0.5, mLeft := 0.25, mRight := 0.25,
    useCustomSize := false, labelWInput := 3.5, labelHInput := 2,
    showGrid := true, imgScale := 100, resizeMode := .fit, startPos := 1 }

/-! ### Claims C1 and C2: sheet count and batch-window invariance -/

/-- Claim C1: for every configuration with `cols ≥ 1`, `rows ≥ 1`,
`start_pos ≥ 1` and every source document with at least one page, the
full-generation pass produces exactly
`ceil((total_pages + start_pos - 1) / (cols * rows))` output sheets, and this
equals the expected-sheet count `total_out_sheets` computed up front. -/
theorem C1_sheet_count (cfg : Config) (doc : List Img) (sheets : List Img)
    (hc : 1 ≤ cfg.cols) (hr : 1 ≤ cfg.rows) (_hsp : 1 ≤ cfg.startPos) (hp : 1 ≤ doc.length)
    (hok : (generate cfg doc BATCH_SIZE).2 = .ok sheets) :
    sheets.length = totalOutSheets cfg doc.length ∧
    (totalOutSheets cfg doc.length : ℤ) =
      ⌈((doc.length + (cfg.startPos - 1) : ℕ) : ℚ) / ((cfg.cols * cfg.rows : ℕ) : ℚ)⌉ := by
  have hl : 1 ≤ cfg.cols * cfg.rows := Nat.mul_pos hc hr
  rw [generate_snd cfg doc BATCH_SIZE (by norm_num [BATCH_SIZE])] at hok
  cases hfold : doc.foldlM
      (placeLabel cfg.startPos cfg.imgScale cfg.resizeMode cfg.cols
        (pixelParams cfg final_dpi) (cfg.cols * cfg.rows))
      { sheets := [], gridPos := 0, current := blankSheet (pixelParams cfg final_dpi) } with
  | error e =>
    rw [hfold] at hok
    simp at hok
  | ok st =>
    rw [hfold] at hok
    have hok2 : (if st.gridPos % (cfg.cols * cfg.rows) ≠ 0
        then Except.ok (st.sheets ++ [st.current]) else Except.ok st.sheets) =
        Except.ok (ε := RunError) sheets := hok
    obtain ⟨hmono, hnil, hpos⟩ := foldl_place_ok cfg.startPos cfg.imgScale cfg.resizeMode
      cfg.cols (pixelParams cfg final_dpi) (cfg.cols * cfg.rows) hl doc _ st hfold
    have hcnt : st.sheets.length = st.gridPos / (cfg.cols * cfg.rows) :=
      hmono (by simp)
    have hne : doc ≠ [] := by
      intro hcontra
      rw [hcontra] at hp
      simp at hp
    have hgp : st.gridPos = (cfg.startPos - 1) + doc.length := by
      have h := hpos hne
      simp only [Nat.zero_max] at h
      omega
    have hsheets : sheets.length =
        st.gridPos / (cfg.cols * cfg.rows) +
          (if st.gridPos % (cfg.cols * cfg.rows) = 0 then 0 else 1) := by
      by_cases hz : st.gridPos % (cfg.cols * cfg.rows) = 0
      · rw [if_neg (not_not_intro hz), Except.ok.injEq] at hok2
        subst hok2
        simp [hz, hcnt]
      · rw [if_pos hz, Except.ok.injEq] at hok2
        subst hok2
        simp [hz, hcnt]
    constructor
    · rw [hsheets, hgp, totalOutSheets]
      rw [Nat.add_comm doc.length (cfg.startPos - 1)]
      exact div_ceil_split _ _ hl
    · rw [totalOutSheets]
      rw [Nat.add_comm doc.length (cfg.startPos - 1)]
      exact ceil_formula ((cfg.startPos - 1) + doc.length) (cfg.cols * cfg.rows) hl

/-- A one-cell-per-sheet configuration used as a concrete witness: a 1-pixel
sheet, one column, one row, stretch mode. -/
def cfgOnePerSheet : Config :=
  { sheetWidth := 1/300, sheetHeight := 1/300, cols := 1, rows := 1,
    hSpacing := 0, vSpacing := 0, mTop := 0, mLeft := 0, mRight := 0,
    useCustomSize := false, labelWInput := 0, labelHInput := 0,
    showGrid := true, imgScale := 100, resizeMode := .stretch, startPos := 1 }

/-- A one-page source document whose single page is a 1-by-1 raster of
colour 7. -/
def onePageDoc : List Img := [{ w := 1, h := 1, pix := fun _ _ => 7 }]

/-- Witness for C1: the concrete one-page run succeeds and its sheet count
matches the expected count. -/
theorem C1_witness :
    ∃ sheets, (generate cfgOnePerSheet onePageDoc BATCH_SIZE).2 = .ok sheets ∧
      sheets.length = totalOutSheets cfgOnePerSheet onePageDoc.length := by
  rcases hE : (generate cfgOnePerSheet onePageDoc BATCH_SIZE).2 with e | s
  · have hv : ((generate cfgOnePerSheet onePageDoc BATCH_SIZE).2).isOk = true := by
      norm_num [generate, genLoop, rasterize, placeLabel, skipN, composite,
        Img.resize, pixelParams, pyInt, Config.mBot, blankSheet, cellOrigin, final_dpi,
        BATCH_SIZE, cfgOnePerSheet, onePageDoc, bind, Except.bind, List.foldlM, pure,
        Except.pure, Except.isOk, Except.toBool]
    rw [hE] at hv
    simp [Except.isOk, Except.toBool] at hv
  · exact ⟨s, rfl, (C1_sheet_count cfgOnePerSheet onePageDoc s
      (by norm_num [cfgOnePerSheet]) (by norm_num [cfgOnePerSheet])
      (by norm_num [cfgOnePerSheet]) (by norm_num [onePageDoc]) hE).1⟩

/-- Claim C2: for every batch window size at least 1, the full-generation
pass produces the identical sheet outcome (same sheet count and
pixel-identical label placement) as any other window size, in particular as
a single window covering all pages; the window size affects only the
rasterizer calls issued, not the output. -/
theorem C2_batch_window_invariance (cfg : Config) (doc : List Img) (B₁ B₂ : ℕ)
    (h₁ : 1 ≤ B₁) (h₂ : 1 ≤ B₂) :
    (generate cfg doc B₁).2 = (generate cfg doc B₂).2 := by
  rw [generate_snd cfg doc B₁ h₁, generate_snd cfg doc B₂ h₂]

/-- Witness for C2: window sizes 1 and 10 agree on a ten-page document (10
is a single window covering all pages). -/
theorem C2_witness :
    (generate cfgDefault (List.replicate 10 { w := 1, h := 1, pix := fun _ _ => 7 }) 1).2 =
      (generate cfgDefault (List.replicate 10 { w := 1, h := 1, pix := fun _ _ => 7 }) 10).2 :=
  C2_batch_window_invariance cfgDefault
    (List.replicate 10 { w := 1, h := 1, pix := fun _ _ => 7 }) 1 10
    (by norm_num) (by norm_num)

/-! ### Claim C3: auto-fill cell sizing -/

/-- Claim C3: in auto-fill sizing mode, `cellWidth` equals
`floor((availableWidth - (cols-1)*hSpacing) / cols)` and `cellHeight` equals
`floor((availableHeight - (rows-1)*vSpacing) / rows)`; consequently, whenever
`availableWidth - (cols-1)*hSpacing ≥ 0`,
`cellWidth*cols + (cols-1)*hSpacing ≤ availableWidth` holds with residual
strictly less than `cols`, and analogously for the height. -/
theorem C3_auto_cell_size (cfg : Config) (dpi : ℕ)
    (hc : 1 ≤ cfg.cols) (hr : 1 ≤ cfg.rows) (hauto : cfg.useCustomSize = false)
    (_hW : 0 ≤ (pixelParams cfg dpi).availW - ((cfg.cols : ℤ) - 1) * (pixelParams cfg dpi).hspace)
    (_hH : 0 ≤ (pixelParams cfg dpi).availH - ((cfg.rows : ℤ) - 1) * (pixelParams cfg dpi).vspace) :
    ((pixelParams cfg dpi).lblW =
        ⌊(((pixelParams cfg dpi).availW - ((cfg.cols : ℤ) - 1) * (pixelParams cfg dpi).hspace : ℤ) : ℚ) /
          (cfg.cols : ℚ)⌋ ∧
      (pixelParams cfg dpi).lblH =
        ⌊(((pixelParams cfg dpi).availH - ((cfg.rows : ℤ) - 1) * (pixelParams cfg dpi).vspace : ℤ) : ℚ) /
          (cfg.rows : ℚ)⌋) ∧
    ((pixelParams cfg dpi).lblW * (cfg.cols : ℤ) + ((cfg.cols : ℤ) - 1) * (pixelParams cfg dpi).hspace ≤
        (pixelParams cfg dpi).availW ∧
      (pixelParams cfg dpi).availW -
          ((pixelParams cfg dpi).lblW * (cfg.cols : ℤ) + ((cfg.cols : ℤ) - 1) * (pixelParams cfg dpi).hspace) <
        (cfg.cols : ℤ)) ∧
    ((pixelParams cfg dpi).lblH * (cfg.rows : ℤ) + ((cfg.rows : ℤ) - 1) * (pixelParams cfg dpi).vspace ≤
        (pixelParams cfg dpi).availH ∧
      (pixelParams cfg dpi).availH -
          ((pixelParams cfg dpi).lblH * (cfg.rows : ℤ) + ((cfg.rows : ℤ) - 1) * (pixelParams cfg dpi).vspace) <
        (cfg.rows : ℤ)) := by
  have hlW := pixelParams_lblW_auto cfg dpi hauto
  have hlH := pixelParams_lblH_auto cfg dpi hauto
  have hbW := fdiv_mul_bound
    ((pixelParams cfg dpi).availW - ((cfg.cols : ℤ) - 1) * (pixelParams cfg dpi).hspace) cfg.cols hc
  have hbH := fdiv_mul_bound
    ((pixelParams cfg dpi).availH - ((cfg.rows : ℤ) - 1) * (pixelParams cfg dpi).vspace) cfg.rows hr
  refine ⟨⟨?_, ?_⟩, ⟨?_, ?_⟩, ⟨?_, ?_⟩⟩
  · rw [hlW, fdiv_cast_floor _ _ hc]
  · rw [hlH, fdiv_cast_floor _ _ hr]
  · rw [hlW]; linarith [hbW.1]
  · rw [hlW]; linarith [hbW.2]
  · rw [hlH]; linarith [hbH.1]
  · rw [hlH]; linarith [hbH.2]

/-- Witness for C3 at the UI's default configuration and final resolution. -/
theorem C3_witness :
    (pixelParams cfgDefault 300).lblW * (cfgDefault.cols : ℤ) +
        ((cfgDefault.cols : ℤ) - 1) * (pixelParams cfgDefault 300).hspace ≤
      (pixelParams cfgDefault 300).availW ∧
    (pixelParams cfgDefault 300).availW -
        ((pixelParams cfgDefault 300).lblW * (cfgDefault.cols : ℤ) +
          ((cfgDefault.cols : ℤ) - 1) * (pixelParams cfgDefault 300).hspace) <
      (cfgDefault.cols : ℤ) :=
  (C3_auto_cell_size cfgDefault 300 (by norm_num [cfgDefault]) (by norm_num [cfgDefault]) rfl
    (by norm_num [pixelParams, pyInt, Config.mBot, cfgDefault])
    (by norm_num [pixelParams, pyInt, Config.mBot, cfgDefault])).2.1

/-! ### Claim C5: fill and fit output dimensions -/

/-- Claim C6: compositing with the `fit` policy a source raster whose
dimensions already equal the effective target content size returns that
raster unchanged: identical dimensions and identical pixel content. -/
theorem C6_fit_round_trip (img : Img) (hw : 1 ≤ img.w) (hh : 1 ≤ img.h) :
    ∃ r, composite .fit img (img.w : ℤ) (img.h : ℤ) = .ok r ∧
      r.w = img.w ∧ r.h = img.h ∧
      ∀ x y, x < img.w → y < img.h → r.pix x y = img.pix x y := by
  have hwz : ¬ (img.w = 0 ∨ img.h = 0) := by omega
  have hw0 : ((img.w : ℚ)) ≠ 0 := Nat.cast_ne_zero.mpr (by omega)
  have hh0 : ((img.h : ℚ)) ≠ 0 := Nat.cast_ne_zero.mpr (by omega)
  have hfs : fitScaled img (img.w : ℤ) (img.h : ℤ) = ((img.w : ℤ), (img.h : ℤ)) := by
    simp only [fitScaled]
    push_cast
    rw [div_self hw0, div_self hh0, min_self, mul_one, mul_one,
      pyInt_of_nonneg (Nat.cast_nonneg _), pyInt_of_nonneg (Nat.cast_nonneg _)]
    simp
  have hres : img.resize ((img.w : ℤ)) ((img.h : ℤ)) = .ok img := by
    unfold Img.resize
    rw [if_neg (by omega), if_pos ⟨rfl, rfl⟩]
  have hnew : imgNew (img.w : ℤ) (img.h : ℤ) white =
      .ok { w := img.w, h := img.h, pix := fun _ _ => white } := by
    unfold imgNew
    rw [if_neg (by omega)]
    simp
  have hcomp : composite .fit img (img.w : ℤ) (img.h : ℤ) =
      .ok (Img.paste { w := img.w, h := img.h, pix := fun _ _ => white } img 0 0) := by
    simp only [composite, if_neg hwz, hfs, hres, hnew]
    simp [sub_self, Int.zero_fdiv]
  refine ⟨_, hcomp, rfl, rfl, ?_⟩
  intro x y hx hy
  show (Img.paste { w := img.w, h := img.h, pix := fun _ _ => white } img 0 0).pix x y =
    img.pix x y
  simp [Img.paste, hx, hy]

/-- Witness for C6 on a concrete 2-by-2 raster. -/
theorem C6_witness :
    ∃ r, composite .fit { w := 2, h := 2, pix := fun x y => x + 10 * y } 2 2 = .ok r ∧
      r.w = 2 ∧ r.h = 2 ∧ ∀ x y, x < 2 → y < 2 → r.pix x y = x + 10 * y :=
  C6_fit_round_trip { w := 2, h := 2, pix := fun x y => x + 10 * y }
    (by norm_num) (by norm_num)

/-! ### Claims C9 and C10: guide-lines independence, mirrored bottom margin -/

/-- Claim C9: the final output sheets are independent of the guide-lines
setting: two full-generation runs differing only in the show-guide-lines
flag produce the identical generation result (rasterizer-call trace and
pixel-identical sheet sequence) and the identical PDF.  The `show_grid`
flag is read only by the preview renderer (app.py lines 134-135), never by
the `Generate Full PDF` block (lines 157-277). -/
theorem C9_guides_independent (cfg : Config) (doc : List Img) (b₁ b₂ : Bool) :
    generate { cfg with showGrid := b₁ } doc BATCH_SIZE =
      generate { cfg with showGrid := b₂ } doc BATCH_SIZE ∧
    fullRun { cfg with showGrid := b₁ } doc = fullRun { cfg with showGrid := b₂ } doc :=
  ⟨rfl, rfl⟩

/-- Claim C10: the bottom margin is always identical to the top margin
(app.py line 101), so at any resolution — both the preview's dpi 72 and the
final render's dpi 300 — the available height equals
`sheetHeight - 2 * topMargin` after pixel conversion. -/
theorem C10_bottom_margin (cfg : Config) (dpi : ℕ) :
    cfg.mBot = cfg.mTop ∧
    (pixelParams cfg dpi).availH =
      pyInt (cfg.sheetHeight * (dpi : ℚ)) - 2 * pyInt (cfg.mTop * (dpi : ℚ)) := by
  refine ⟨rfl, ?_⟩
  simp only [pixelParams, Config.mBot]
  ring

/-! ### Claim C4: grid placement and start-position skipping -/

/-- A 3-pixel-wide, 1-pixel-high sheet with a 3-by-1 grid and
`start_pos = 3`: each grid cell is exactly one pixel, so the placement of
the single source page is visible pixel by pixel. -/
def cfgStartThree : Config :=
  { sheetWidth := 1/100, sheetHeight := 1/300, cols := 3, rows := 1,
    hSpacing := 0, vSpacing := 0, mTop := 0, mLeft := 0, mRight := 0,
    useCustomSize := false, labelWInput := 0, labelHInput := 0,
    showGrid := true, imgScale := 100, resizeMode := .fit, startPos := 3 }

/-- Claim C4: a label placed at grid position `pos` lands at column
`pos mod cols`, row `pos div cols`, with cell origin
`x = leftMargin + column*(cellWidth + hSpacing)` and
`y = topMargin + row*(cellHeight + vSpacing)`; in particular, with
`start_pos = 3` on a one-pixel-per-cell grid the first source page is
pasted at 0-based grid position 2 of the (single) first sheet — pixel 2
holds the page's colour 7 — and positions 0 and 1 receive no raster (their
pixels stay white). -/
theorem C4_placement (pp : PixelParams) (cols pos : ℕ) :
    cellOrigin pp cols pos =
      (pp.ml + ((pos % cols : ℕ) : ℤ) * (pp.lblW + pp.hspace),
       pp.mt + ((pos / cols : ℕ) : ℤ) * (pp.lblH + pp.vspace)) ∧
    ((generate cfgStartThree onePageDoc BATCH_SIZE).2.map
        (fun l => l.map (fun s => (s.w, s.h, s.pix 0 0, s.pix 1 0, s.pix 2 0)))) =
      .ok [(3, 1, white, white, 7)] := by
  refine ⟨rfl, ?_⟩
  norm_num [generate, genLoop, rasterize, placeLabel, skipN, skipStep, composite, fitScaled,
    Img.resize, imgNew, Img.paste, pixelParams, pyInt, Config.mBot, blankSheet, cellOrigin,
    final_dpi, BATCH_SIZE, cfgStartThree, onePageDoc, bind, Except.bind, List.foldlM, pure,
    Except.pure, Except.map, white]
  decide

/-! ### Claim C7: no InvalidConfiguration check for non-positive cell sizes -/

/-- A configuration within the UI's control ranges whose auto-fill cell
width is negative: margins 2 + 2 inches, 10 columns post 1-inch gaps on an
8.5-inch sheet give `(1350 - 9*300) // 10 = -135` pixels. -/
def cfgNegativeCell : Config :=
  { sheetWidth := 8.5, sheetHeight := 11, cols := 10, rows := 1,
    hSpacing := 1, vSpacing := 0, mTop := 0, mLeft := 2, mRight := 2,
    useCustomSize := false, labelWInput := 0, labelHInput := 0,
    showGrid := true, imgScale := 100, resizeMode := .stretch, startPos := 1 }

/-- Concrete pixel parameters of `cfgNegativeCell` at the final resolution:
the computed cell width is `-135`. -/
theorem pixelParams_cfgNegativeCell :
    pixelParams cfgNegativeCell final_dpi =
      { sheetW := 2550, sheetH := 3300, mt := 0, ml := 600, hspace := 300, vspace := 0,
        availW := 1350, availH := 3300, lblW := -135, lblH := 3300 } := by
  norm_num [pixelParams, pyInt, Config.mBot, cfgNegativeCell, final_dpi, Int.fdiv_eq_ediv]

/-- Every failure of `Img.resize` is a `ValueError`. -/
theorem resize_error_eq (img : Img) (w h : ℤ) (e : RunError)
    (hr : img.resize w h = .error e) : e = .valueError := by
  unfold Img.resize at hr
  split at hr
  · exact (Except.error.inj hr).symm
  · split at hr <;> exact Except.noConfusion hr

/-- Every failure of `Img.crop` is a `ValueError`. -/
theorem crop_error_eq (img : Img) (l t r b : ℤ) (e : RunError)
    (hr : img.crop l t r b = .error e) : e = .valueError := by
  unfold Img.crop at hr
  split at hr
  · exact (Except.error.inj hr).symm
  · exact Except.noConfusion hr

/-- Every failure of `imgNew` is a `ValueError`. -/
theorem imgNew_error_eq (w h : ℤ) (c : ℕ) (e : RunError)
    (hr : imgNew w h c = .error e) : e = .valueError := by
  unfold imgNew at hr
  split at hr
  · exact (Except.error.inj hr).symm
  · exact Except.noConfusion hr

/-- The compositor can fail only with a `ValueError` or a
`ZeroDivisionError`, never with the spec's `InvalidConfiguration`. -/
theorem composite_error_ne (mode : ResizeMode) (img : Img) (effW effH : ℤ) (e : RunError)
    (hc : composite mode img effW effH = .error e) : e ≠ .invalidConfiguration := by
  cases mode with
  | stretch =>
    rw [resize_error_eq img effW effH e hc]
    decide
  | fill =>
    simp only [composite] at hc
    split at hc
    · rw [← Except.error.inj hc]
      decide
    · split at hc
      · next e' heq =>
        rw [← Except.error.inj hc, resize_error_eq _ _ _ _ heq]
        decide
      · next r heq =>
        rw [crop_error_eq _ _ _ _ _ _ hc]
        decide
  | fit =>
    simp only [composite] at hc
    split at hc
    · rw [← Except.error.inj hc]
      decide
    · split at hc
      · next e' heq =>
        rw [← Except.error.inj hc, resize_error_eq _ _ _ _ heq]
        decide
      · next r heq =>
        split at hc
        · next e' heq2 =>
          rw [← Except.error.inj hc, imgNew_error_eq _ _ _ _ heq2]
          decide
        · exact Except.noConfusion hc

/-- A failing `placeLabel` step never reports `InvalidConfiguration`. -/
theorem placeLabel_error_ne (startPos imgScale : ℕ) (mode : ResizeMode) (cols : ℕ)
    (pp : PixelParams) (lps : ℕ) (st : GenState) (img : Img) (e : RunError)
    (hp : placeLabel startPos imgScale mode cols pp lps st img = .error e) :
    e ≠ .invalidConfiguration := by
  simp only [placeLabel] at hp
  split at hp
  · next e' heq =>
    exact (Except.error.inj hp) ▸ composite_error_ne _ _ _ _ _ heq
  · split at hp <;> exact Except.noConfusion hp

/-- A failing fold of `placeLabel` over any page list never reports
`InvalidConfiguration`. -/
theorem foldl_place_error_ne (startPos imgScale : ℕ) (mode : ResizeMode) (cols : ℕ)
    (pp : PixelParams) (lps : ℕ) :
    ∀ (imgs : List Img) (st : GenState) (e : RunError),
      imgs.foldlM (placeLabel startPos imgScale mode cols pp lps) st = .error e →
      e ≠ .invalidConfiguration := by
  intro imgs
  induction imgs with
  | nil =>
    intro st e h
    simp only [List.foldlM_nil, pure, Except.pure] at h
    exact Except.noConfusion h
  | cons a as ih =>
    intro st e h
    rw [List.foldlM_cons] at h
    cases hp : placeLabel startPos imgScale mode cols pp lps st a with
    | error e' =>
      rw [hp] at h
      simp only [bind, Except.bind] at h
      exact (Except.error.inj h) ▸ placeLabel_error_ne _ _ _ _ _ _ _ _ _ hp
    | ok st1 =>
      rw [hp] at h
      simp only [bind, Except.bind] at h
      exact ih st1 e h

/-- With at least one source page, the batch loop always issues its first
rasterizer call: the trace of one unfolding step is nonempty whether the
first window's placement succeeds or fails. -/
theorem genLoop_trace_ne_nil (startPos imgScale : ℕ) (mode : ResizeMode) (cols : ℕ)
    (pp : PixelParams) (lps : ℕ) (doc : List Img) (B : ℕ) (n lrh : ℕ) (st : GenState)
    (hlt : lrh < doc.length) :
    (genLoop startPos imgScale mode cols pp lps doc B (n + 1) lrh st).1 ≠ [] := by
  simp only [genLoop]
  rw [if_pos hlt]
  cases hfold : (rasterize doc (lrh + 1) (min (lrh + B) doc.length)).foldlM
      (placeLabel startPos imgScale mode cols pp lps) st with
  | error e => simp [hfold]
  | ok st2 => simp [hfold]

/-- The rasterizer-call trace reported by `generate` is exactly the batch
loop's trace. -/
theorem generate_fst (cfg : Config) (doc : List Img) (B : ℕ) :
    (generate cfg doc B).1 =
      (genLoop cfg.startPos cfg.imgScale cfg.resizeMode cfg.cols
        (pixelParams cfg final_dpi) (cfg.cols * cfg.rows) doc B doc.length 0
        { sheets := [], gridPos := 0,
          current := blankSheet (pixelParams cfg final_dpi) }).1 := by
  simp only [generate]
  rcases hE : genLoop cfg.startPos cfg.imgScale cfg.resizeMode cfg.cols
      (pixelParams cfg final_dpi) (cfg.cols * cfg.rows) doc B doc.length 0
      { sheets := [], gridPos := 0, current := blankSheet (pixelParams cfg final_dpi) }
      with ⟨tr, res⟩
  rcases res with e | st
  · rfl
  · by_cases hz : st.gridPos % (cfg.cols * cfg.rows) = 0 <;> simp [hz]

/-- Claim C7 amended: when auto-fill sizing yields a computed cell width or
height that is 0 or negative, the run performs no configuration validation:
on any source document with at least one page it does not abort before
rasterization — the first batch window is requested from the rasterizer —
and it never reports an `InvalidConfiguration` error (any failure it does
hit is a different error). -/
theorem C7_amended_no_validation (cfg : Config) (doc : List Img)
    (_hauto : cfg.useCustomSize = false)
    (_hcell : (pixelParams cfg final_dpi).lblW ≤ 0 ∨ (pixelParams cfg final_dpi).lblH ≤ 0)
    (hdoc : 1 ≤ doc.length) :
    (generate cfg doc BATCH_SIZE).1 ≠ [] ∧
    ∀ e, (generate cfg doc BATCH_SIZE).2 = .error e → e ≠ .invalidConfiguration := by
  constructor
  · obtain ⟨n, hn⟩ : ∃ n, doc.length = n + 1 := ⟨doc.length - 1, by omega⟩
    rw [generate_fst, hn]
    exact genLoop_trace_ne_nil cfg.startPos cfg.imgScale cfg.resizeMode cfg.cols
      (pixelParams cfg final_dpi) (cfg.cols * cfg.rows) doc BATCH_SIZE n 0 _ (by omega)
  · intro e he
    rw [generate_snd cfg doc BATCH_SIZE (by norm_num [BATCH_SIZE])] at he
    cases hfold : doc.foldlM
        (placeLabel cfg.startPos cfg.imgScale cfg.resizeMode cfg.cols
          (pixelParams cfg final_dpi) (cfg.cols * cfg.rows))
        { sheets := [], gridPos := 0, current := blankSheet (pixelParams cfg final_dpi) } with
    | error e' =>
      rw [hfold] at he
      have he2 : (Except.error e' : Except RunError (List Img)) = Except.error e := he
      exact (Except.error.inj he2) ▸
        foldl_place_error_ne cfg.startPos cfg.imgScale cfg.resizeMode cfg.cols
          (pixelParams cfg final_dpi) (cfg.cols * cfg.rows) doc _ _ hfold
    | ok st =>
      rw [hfold] at he
      have he2 : (if st.gridPos % (cfg.cols * cfg.rows) ≠ 0
          then Except.ok (st.sheets ++ [st.current]) else Except.ok st.sheets) =
          (Except.error e : Except RunError (List Img)) := he
      split at he2 <;> exact Except.noConfusion he2

/-- Counterexample to claim C7 as stated: `cfgNegativeCell` is an auto-fill
configuration whose computed cell width is non-positive, yet the run does
not abort before rasterization — the first batch window `(1, 1)` is
requested — and it fails with the library's `ValueError`, never with an
`InvalidConfiguration` report. -/
theorem C7_counterexample :
    cfgNegativeCell.useCustomSize = false ∧
    (pixelParams cfgNegativeCell final_dpi).lblW ≤ 0 ∧
    (generate cfgNegativeCell onePageDoc BATCH_SIZE).1 = [(1, 1)] ∧
    (generate cfgNegativeCell onePageDoc BATCH_SIZE).2 = .error .valueError ∧
    (generate cfgNegativeCell onePageDoc BATCH_SIZE).2 ≠ .error .invalidConfiguration := by
  have hval : (generate cfgNegativeCell onePageDoc BATCH_SIZE).2 = .error .valueError ∧
      (generate cfgNegativeCell onePageDoc BATCH_SIZE).1 = [(1, 1)] := by
    simp only [generate, onePageDoc, List.length_cons, List.length_nil,
      pixelParams_cfgNegativeCell]
    simp only [genLoop]
    norm_num [rasterize, placeLabel, skipN, skipStep, composite, Img.resize,
      pyInt, blankSheet, cellOrigin, BATCH_SIZE, cfgNegativeCell, bind, Except.bind,
      List.foldlM]
  refine ⟨rfl, ?_, hval.2, hval.1, ?_⟩
  · rw [pixelParams_cfgNegativeCell]
    norm_num
  · rw [hval.1]
    intro hcontra
    exact absurd (Except.error.inj hcontra) (by decide)

/-- Witness for the amended C7 at the concrete configuration. -/
theorem C7_witness :
    (generate cfgNegativeCell onePageDoc BATCH_SIZE).1 ≠ [] ∧
    ∀ e, (generate cfgNegativeCell onePageDoc BATCH_SIZE).2 = .error e →
      e ≠ .invalidConfiguration :=
  C7_amended_no_validation cfgNegativeCell onePageDoc rfl
    (Or.inl (by rw [pixelParams_cfgNegativeCell]; norm_num))
    (by norm_num [onePageDoc])

/-! ### Claim C8: empty document handling -/

/-- Claim C8 amended: for a zero-page source document the generation loop
produces no sheets (and consequently no PDF artifact), but the run then
fails with the generic `IndexError` raised by `output_sheets[0]` — the code
has no distinct `EmptyDocument` error. -/
theorem C8_empty_doc (cfg : Config) :
    (generate cfg [] BATCH_SIZE).2 = .ok [] ∧ fullRun cfg [] = .error .indexError := by
  have hg : (generate cfg [] BATCH_SIZE).2 = .ok [] := by
    simp [generate, genLoop]
  refine ⟨hg, ?_⟩
  simp only [fullRun, hg, savePDF]

/-- Counterexample to claim C8 as stated: on the default configuration with
a zero-page document the run fails with `IndexError`, not with the distinct
`EmptyDocument` error the claim requires. -/
theorem C8_counterexample :
    fullRun cfgDefault [] = .error .indexError ∧
    fullRun cfgDefault [] ≠ .error .emptyDocument := by
  have h : fullRun cfgDefault [] = .error .indexError := by
    simp [fullRun, generate, genLoop, savePDF]
  refine ⟨h, ?_⟩
  rw [h]
  intro hcontra
  exact absurd (Except.error.inj hcontra) (by decide)

end LabelSheet
